import Mathlib

/-!
# MotionArcade gesture core — verification of the specification claims

A shallow embedding of the gesture-recognition core of the MotionArcade
repository, together with proofs settling the frozen claims about it.

Conventions of the embedding:

* JavaScript numbers are modelled as rationals (`ℚ`); the optional depth
  coordinate `z` of a landmark is an `Option ℚ` (the source reads it as
  `l.z || 0`).
* An out-of-range array access followed by a property read throws a
  `TypeError` in JavaScript; functions that can hit such an access are
  embedded as `Option`-returning functions, `none` standing for the thrown
  exception.
* Per-frame loops (`requestAnimationFrame` callbacks, one-second
  `setTimeout` chains and the React effects that re-run on the states they
  set) become explicit tick functions on explicit state records.
-/

namespace MotionArcade

/-- One hand landmark as delivered by the hand-pose model: planar
coordinates and an optional relative depth (the source reads depth as
`l.z || 0`, tolerating its absence). -/
structure Landmark where
  x : ℚ
  y : ℚ
  z : Option ℚ := none
deriving DecidableEq, Repr

/-! ## Finger counting (`src/lib/finger-counting.ts`, `countFingers`)

The source walks the per-hand landmark arrays in parallel with the
per-hand handedness arrays:

```
const FINGER_TIPS = [4, 8, 12, 16, 20];
const FINGER_PIPS = [3, 6, 10, 14, 18];
for (let j = 1; j < 5; j++) {
  const tip = handLandmarks[FINGER_TIPS[j]];
  const pip = handLandmarks[FINGER_PIPS[j]];
  if (tip.y < pip.y) raisedFingers++;
}
```

`handLandmarks[k]` on a short array yields `undefined` and the subsequent
`.y` read throws, hence the `Option`-valued embedding below. -/

def FINGER_TIPS : List ℕ := [4, 8, 12, 16, 20]

def FINGER_PIPS : List ℕ := [3, 6, 10, 14, 18]

def THUMB_TIP_INDEX : ℕ := 4

def INDEX_FINGER_MCP_INDEX : ℕ := 5

/-- The `j = 1..4` loop of `countFingers`: one increment per non-thumb
finger whose tip is above (smaller `y` than) its PIP joint.  A missing
landmark (`tip.y` on `undefined`) is the thrown exception, i.e. `none`. -/
def raisedNonThumb (handLandmarks : List Landmark) : Option ℕ :=
  ((FINGER_TIPS.zip FINGER_PIPS).drop 1).foldlM
    (fun acc ji => do
      let tip ← handLandmarks.get? ji.1
      let pip ← handLandmarks.get? ji.2
      pure (if tip.y < pip.y then acc + 1 else acc))
    0

/-- The thumb branch of `countFingers`: handedness-dependent comparison of
the thumb tip's `x` against the index-finger MCP's `x`; an unrecognised
label raises nothing (the source has no `else` branch, and the `.x` reads
happen only inside the `'Right'`/`'Left'` branches). -/
def raisedThumb (handLandmarks : List Landmark) (hand : String) : Option ℕ :=
  if hand = "Right" then do
    let thumbTip ← handLandmarks.get? THUMB_TIP_INDEX
    let indexMcp ← handLandmarks.get? INDEX_FINGER_MCP_INDEX
    pure (if thumbTip.x < indexMcp.x then 1 else 0)
  else if hand = "Left" then do
    let thumbTip ← handLandmarks.get? THUMB_TIP_INDEX
    let indexMcp ← handLandmarks.get? INDEX_FINGER_MCP_INDEX
    pure (if thumbTip.x > indexMcp.x then 1 else 0)
  else
    pure 0

/-- `raisedFingers` for one hand: the four non-thumb fingers plus the
thumb. -/
def raisedFingers (handLandmarks : List Landmark) (hand : String) : Option ℕ := do
  let nt ← raisedNonThumb handLandmarks
  let th ← raisedThumb handLandmarks hand
  pure (nt + th)

/-- `handedness[i] && handedness[i][0] ? handedness[i][0].categoryName :
'Unknown'` — the label of hand `i`, defaulting to `"Unknown"` when the
parallel handedness entry or its first category is absent. -/
def handLabel (handedness : List (List String)) (i : ℕ) : String :=
  match (handedness.get? i).bind List.head? with
  | some l => l
  | none => "Unknown"

/-- The indexed `for (let i = 0; i < landmarks.length; i++)` loop of
`countFingers`, accumulating the per-hand counts; `i` tracks the parallel
index into the handedness array. -/
def countFingersAux (handedness : List (List String)) (i : ℕ) :
    List (List Landmark) → Option ℕ
  | [] => some 0
  | hl :: rest => do
    let rf ← raisedFingers hl (handLabel handedness i)
    let restTotal ← countFingersAux handedness (i + 1) rest
    pure (rf + restTotal)

/-- `countFingers(landmarks, handedness)` from `src/lib/finger-counting.ts`:
`0` for an empty (or absent) hand list, otherwise the sum of the per-hand
raised-finger counts; `none` models the `TypeError` thrown when a hand's
landmark array is too short for one of the fixed indices. -/
def countFingers (landmarks : List (List Landmark))
    (handedness : List (List String)) : Option ℕ :=
  if landmarks = [] then some 0
  else countFingersAux handedness 0 landmarks

/-! ### Totality and bounds of the finger counter -/

theorem get?_of_full {hl : List Landmark} (h : 21 ≤ hl.length) {i : ℕ}
    (hi : i < 21) : ∃ l, hl.get? i = some l :=
  ⟨hl.get ⟨i, lt_of_lt_of_le hi h⟩, List.get?_eq_get _⟩

theorem raisedNonThumb_total {hl : List Landmark} (h : 21 ≤ hl.length) :
    ∃ m, raisedNonThumb hl = some m ∧ m ≤ 4 := by
  obtain ⟨t1, h8⟩ := get?_of_full h (by norm_num : (8 : ℕ) < 21)
  obtain ⟨p1, h6⟩ := get?_of_full h (by norm_num : (6 : ℕ) < 21)
  obtain ⟨t2, h12⟩ := get?_of_full h (by norm_num : (12 : ℕ) < 21)
  obtain ⟨p2, h10⟩ := get?_of_full h (by norm_num : (10 : ℕ) < 21)
  obtain ⟨t3, h16⟩ := get?_of_full h (by norm_num : (16 : ℕ) < 21)
  obtain ⟨p3, h14⟩ := get?_of_full h (by norm_num : (14 : ℕ) < 21)
  obtain ⟨t4, h20⟩ := get?_of_full h (by norm_num : (20 : ℕ) < 21)
  obtain ⟨p4, h18⟩ := get?_of_full h (by norm_num : (18 : ℕ) < 21)
  simp only [raisedNonThumb, FINGER_TIPS, FINGER_PIPS, List.zip, List.zipWith,
    List.drop, List.foldlM, h8, h6, h12, h10, h16, h14, h20, h18,
    Option.bind_eq_bind, Option.some_bind, Option.pure_def]
  refine ⟨_, rfl, ?_⟩
  split_ifs <;> norm_num

theorem raisedThumb_total {hl : List Landmark} (h : 21 ≤ hl.length)
    (hand : String) : ∃ t, raisedThumb hl hand = some t ∧ t ≤ 1 := by
  obtain ⟨tt, h4⟩ := get?_of_full h (by norm_num : (4 : ℕ) < 21)
  obtain ⟨im, h5⟩ := get?_of_full h (by norm_num : (5 : ℕ) < 21)
  unfold raisedThumb
  split_ifs <;>
    simp only [THUMB_TIP_INDEX, INDEX_FINGER_MCP_INDEX, h4, h5,
      Option.bind_eq_bind, Option.some_bind, Option.pure_def] <;>
    refine ⟨_, rfl, ?_⟩ <;> first
      | (split_ifs <;> norm_num)
      | norm_num

theorem raisedFingers_total {hl : List Landmark} (h : 21 ≤ hl.length)
    (hand : String) : ∃ k, raisedFingers hl hand = some k ∧ k ≤ 5 := by
  obtain ⟨m, hm, hm4⟩ := raisedNonThumb_total h
  obtain ⟨t, ht, ht1⟩ := raisedThumb_total h hand
  exact ⟨m + t, by simp [raisedFingers, hm, ht], by omega⟩

theorem countFingersAux_total (handedness : List (List String)) :
    ∀ (hands : List (List Landmark)) (i : ℕ),
      (∀ hl ∈ hands, 21 ≤ hl.length) →
      ∃ n, countFingersAux handedness i hands = some n ∧ n ≤ 5 * hands.length
  | [], _, _ => ⟨0, rfl, by simp⟩
  | hl :: rest, i, hwf => by
    obtain ⟨k, hk, hk5⟩ :=
      raisedFingers_total (hwf hl (by simp)) (handLabel handedness i)
    obtain ⟨n, hn, hn5⟩ :=
      countFingersAux_total handedness rest (i + 1)
        (fun x hx => hwf x (by simp [hx]))
    refine ⟨k + n, by simp [countFingersAux, hk, hn], ?_⟩
    simp only [List.length_cons]
    omega

/-- C1 counterexample: a frame holding one hand with only 20 landmarks.
The claim says such a malformed hand contributes the neutral zero result;
in fact `countFingers` reads `handLandmarks[20].y` on an `undefined`
entry, i.e. throws a `TypeError` (embedded as `none`), so the call
produces no result at all — in particular not the neutral `0`. -/
theorem countFingers_undersized_hand_throws :
    countFingers [List.replicate 20 ⟨0, 0, none⟩] [["Right"]] = none ∧
    countFingers [List.replicate 20 ⟨0, 0, none⟩] [["Right"]] ≠ some 0 := by
  decide

/-- C1 (amended): `countFingers` never throws on an empty frame (it
returns `0`) and never throws on any frame whose every hand carries the
full 21 landmarks; but a hand with fewer than 21 landmarks makes it throw
(see the counterexample) rather than contribute a neutral result. -/
theorem countFingers_total_on_full_hands (landmarks : List (List Landmark))
    (handedness : List (List String))
    (hwf : ∀ hl ∈ landmarks, 21 ≤ hl.length) :
    ∃ n, countFingers landmarks handedness = some n := by
  rcases eq_or_ne landmarks [] with rfl | hne
  · exact ⟨0, rfl⟩
  · obtain ⟨n, hn, -⟩ := countFingersAux_total handedness landmarks 0 hwf
    exact ⟨n, by simp [countFingers, hne, hn]⟩

/-- Witness for C1: a frame of one full 21-landmark hand satisfies the
hypothesis and the function returns a value. -/
theorem countFingers_total_on_full_hands_witness :
    (∀ hl ∈ [List.replicate 21 (⟨0, 0, none⟩ : Landmark)], 21 ≤ hl.length) ∧
    ∃ n, countFingers [List.replicate 21 ⟨0, 0, none⟩] [["Right"]] = some n :=
  ⟨by decide, countFingers_total_on_full_hands _ [["Right"]] (by decide)⟩

/-- C6: on a well-formed frame (every hand has exactly 21 landmarks) the
per-hand raised-finger count is at most 5, and on a frame of at most two
such hands the total returned by `countFingers` is defined and at most
10. -/
theorem countFingers_bounds (landmarks : List (List Landmark))
    (handedness : List (List String))
    (hwf : ∀ hl ∈ landmarks, hl.length = 21) (hn : landmarks.length ≤ 2) :
    (∀ hl ∈ landmarks, ∀ hand, ∃ k, raisedFingers hl hand = some k ∧ k ≤ 5) ∧
    (∃ n, countFingers landmarks handedness = some n ∧ n ≤ 10) := by
  have hwf' : ∀ hl ∈ landmarks, 21 ≤ hl.length :=
    fun hl h => le_of_eq (hwf hl h).symm
  constructor
  · exact fun hl h hand => raisedFingers_total (hwf' hl h) hand
  · rcases eq_or_ne landmarks [] with rfl | hne
    · exact ⟨0, rfl, by norm_num⟩
    · obtain ⟨n, hcount, hbound⟩ := countFingersAux_total handedness landmarks 0 hwf'
      exact ⟨n, by simp [countFingers, hne, hcount], by omega⟩

/-- Witness for C6: a two-hand frame of full 21-landmark hands. -/
theorem countFingers_bounds_witness :
    (∀ hl ∈ [List.replicate 21 (⟨0, 0, none⟩ : Landmark),
             List.replicate 21 (⟨0, 0, none⟩ : Landmark)], hl.length = 21) ∧
    ([List.replicate 21 (⟨0, 0, none⟩ : Landmark),
      List.replicate 21 (⟨0, 0, none⟩ : Landmark)].length ≤ 2) ∧
    ((∀ hl ∈ [List.replicate 21 (⟨0, 0, none⟩ : Landmark),
              List.replicate 21 (⟨0, 0, none⟩ : Landmark)],
        ∀ hand, ∃ k, raisedFingers hl hand = some k ∧ k ≤ 5) ∧
     (∃ n, countFingers
        [List.replicate 21 (⟨0, 0, none⟩ : Landmark),
         List.replicate 21 (⟨0, 0, none⟩ : Landmark)] [["Right"], ["Left"]] =
          some n ∧ n ≤ 10)) :=
  ⟨by decide, by decide,
    countFingers_bounds _ [["Right"], ["Left"]] (by decide) (by decide)⟩

/-! ## Sketch & Score gesture predicates
(`src/app/games/sketch-and-score/SketchAndScoreClient.tsx`)

Both predicates first guard `!handLandmarks || handLandmarks.length < 21`
and return `false`; after that guard every index they read is in range, so
plain (defaulted) indexing is an exact model of the JavaScript reads. -/

/-- `handLandmarks[i]`: the callers only read it under the
`handLandmarks.length < 21` guard, so the index is always in range and the
default is never consulted. -/
def lm (handLandmarks : List Landmark) (i : ℕ) : Landmark :=
  (handLandmarks.get? i).getD ⟨0, 0, none⟩

/-- `isPointing`: index finger extended (tip strictly above, i.e. smaller
`y` than, its PIP) while the middle, ring and pinky tips are strictly
below (`tip.y > pip.y`) their PIPs. -/
def isPointing (handLandmarks : List Landmark) : Bool :=
  if handLandmarks.length < 21 then false
  else
    decide ((lm handLandmarks 8).y < (lm handLandmarks 6).y) &&
    decide ((lm handLandmarks 12).y > (lm handLandmarks 10).y) &&
    decide ((lm handLandmarks 16).y > (lm handLandmarks 14).y) &&
    decide ((lm handLandmarks 20).y > (lm handLandmarks 18).y)

/-- `thumbTip.z || 0`: the depth coordinate with a missing depth read as
`0`. -/
def zOr0 (l : Landmark) : ℚ := l.z.getD 0

/-- The squared 3D distance between thumb tip and index tip computed by
`isPinching` (before the source takes its square root). -/
def pinchDistSq (thumbTip indexTip : Landmark) : ℚ :=
  (thumbTip.x - indexTip.x) ^ 2 + (thumbTip.y - indexTip.y) ^ 2 +
    (zOr0 thumbTip - zOr0 indexTip) ^ 2

/-- `isPinching`: the source compares `Math.sqrt(d) < 0.05`; both sides
are nonnegative, so this is the same as `d < 0.05 ^ 2 = 1 / 400`, which
keeps the embedding inside `ℚ` (the equivalence with the square-root form
is proved in `isPinching_spec`). -/
def isPinching (handLandmarks : List Landmark) : Bool :=
  if handLandmarks.length < 21 then false
  else decide (pinchDistSq (lm handLandmarks 4) (lm handLandmarks 8) < 1 / 400)

/-- A full 21-landmark hand whose thumb tip (landmark 4) sits at distance
`d` along the x axis from its index tip (landmark 8); every other
coordinate vanishes. -/
def pinchHand (d : ℚ) : List Landmark :=
  List.replicate 4 ⟨0, 0, none⟩ ++ [⟨d, 0, none⟩] ++ List.replicate 16 ⟨0, 0, none⟩

theorem isPinching_pinchHand (d : ℚ) :
    isPinching (pinchHand d) = decide (d ^ 2 < 1 / 400) := by
  have h4 : lm (pinchHand d) 4 = ⟨d, 0, none⟩ := rfl
  have h8 : lm (pinchHand d) 8 = ⟨0, 0, none⟩ := rfl
  have hlen : (pinchHand d).length = 21 := rfl
  rw [isPinching, if_neg (by omega), h4, h8]
  congr 1
  simp only [pinchDistSq, zOr0, Option.getD_none, eq_iff_iff]
  constructor <;> intro h <;> nlinarith [h]

/-- C8: for a 21-landmark hand, `isPinching` is true exactly when the
Euclidean 3D distance (missing depth read as 0) between thumb tip and
index tip is strictly below 0.05; and on the pinch-distance sequence
`[0.12, 0.03, 0.02]` it classifies the three ticks as
`[false, true, true]`. -/
theorem isPinching_spec :
    (∀ hl : List Landmark, hl.length = 21 →
      (isPinching hl = true ↔
        Real.sqrt ((pinchDistSq (lm hl 4) (lm hl 8) : ℚ) : ℝ) < 0.05)) ∧
    isPinching (pinchHand (12 / 100)) = false ∧
    isPinching (pinchHand (3 / 100)) = true ∧
    isPinching (pinchHand (2 / 100)) = true := by
  refine ⟨?_, ?_, ?_, ?_⟩
  · intro hl h21
    rw [isPinching, if_neg (by omega),
      Real.sqrt_lt' (by norm_num : (0 : ℝ) < 0.05),
      show ((0.05 : ℝ)) ^ 2 = ((1 / 400 : ℚ) : ℝ) by norm_num,
      Rat.cast_lt, decide_eq_true_eq]
  · rw [isPinching_pinchHand, decide_eq_false_iff_not]
    norm_num
  · rw [isPinching_pinchHand, decide_eq_true_eq]
    norm_num
  · rw [isPinching_pinchHand, decide_eq_true_eq]
    norm_num

/-- Witness for C8: the distance-0.03 hand satisfies the hypothesis and
instantiates the equivalence. -/
theorem isPinching_spec_witness :
    (pinchHand (3 / 100)).length = 21 ∧
    (isPinching (pinchHand (3 / 100)) = true ↔
      Real.sqrt ((pinchDistSq (lm (pinchHand (3 / 100)) 4)
        (lm (pinchHand (3 / 100)) 8) : ℚ) : ℝ) < 0.05) :=
  ⟨by decide, isPinching_spec.1 _ (by decide)⟩

/-- The pointing predicate exactly as the claim words it: index finger
extended (tip strictly above its PIP) and each of middle, ring and pinky
"not extended", a finger whose tip `y` EQUALS its PIP `y` counting as not
extended. -/
def pointingClaim (hl : List Landmark) : Prop :=
  (lm hl 8).y < (lm hl 6).y ∧
  ¬ (lm hl 12).y < (lm hl 10).y ∧
  ¬ (lm hl 16).y < (lm hl 14).y ∧
  ¬ (lm hl 20).y < (lm hl 18).y

/-- A 21-landmark hand at the claim's boundary case: the index finger is
extended, ring and pinky tips are strictly below their PIPs, but the
middle fingertip sits at EXACTLY its PIP's height. -/
def boundaryHand : List Landmark :=
  [⟨0, 0, none⟩, ⟨0, 0, none⟩, ⟨0, 0, none⟩, ⟨0, 0, none⟩, ⟨0, 0, none⟩,
   ⟨0, 0, none⟩, ⟨0, 1, none⟩, ⟨0, 0, none⟩, ⟨0, 0, none⟩, ⟨0, 0, none⟩,
   ⟨0, 1, none⟩, ⟨0, 0, none⟩, ⟨0, 1, none⟩, ⟨0, 0, none⟩, ⟨0, 0, none⟩,
   ⟨0, 0, none⟩, ⟨0, 1, none⟩, ⟨0, 0, none⟩, ⟨0, 0, none⟩, ⟨0, 0, none⟩,
   ⟨0, 1, none⟩]

/-- C9 counterexample: on `boundaryHand` the claim's reading (equality ⇒
finger not extended ⇒ still pointing) demands `isPointing = true`, but the
code compares the middle fingertip with a strict `>` and returns
`false`. -/
theorem isPointing_boundary_counterexample :
    boundaryHand.length = 21 ∧ pointingClaim boundaryHand ∧
    isPointing boundaryHand = false := by
  refine ⟨by decide, ?_, by decide⟩
  unfold pointingClaim
  decide

/-- C9 (amended): for every hand with 21 landmarks, `isPointing` returns
true iff the index finger is extended (tip `y` strictly less than PIP `y`)
and the middle, ring and pinky tips lie STRICTLY below their PIPs
(tip `y` strictly greater); at the boundary where a non-index fingertip's
`y` equals its PIP's `y`, that conjunct fails and `isPointing` is
false. -/
theorem isPointing_iff (hl : List Landmark) (h21 : hl.length = 21) :
    isPointing hl = true ↔
      ((lm hl 8).y < (lm hl 6).y ∧ (lm hl 10).y < (lm hl 12).y ∧
       (lm hl 14).y < (lm hl 16).y ∧ (lm hl 18).y < (lm hl 20).y) := by
  rw [isPointing, if_neg (by omega)]
  simp [gt_iff_lt, and_assoc]

/-- A 21-landmark hand that points: index tip above its PIP, the other
three tips strictly below theirs. -/
def pointHand : List Landmark :=
  [⟨0, 0, none⟩, ⟨0, 0, none⟩, ⟨0, 0, none⟩, ⟨0, 0, none⟩, ⟨0, 0, none⟩,
   ⟨0, 0, none⟩, ⟨0, 1, none⟩, ⟨0, 0, none⟩, ⟨0, 0, none⟩, ⟨0, 0, none⟩,
   ⟨0, 0, none⟩, ⟨0, 0, none⟩, ⟨0, 1, none⟩, ⟨0, 0, none⟩, ⟨0, 0, none⟩,
   ⟨0, 0, none⟩, ⟨0, 1, none⟩, ⟨0, 0, none⟩, ⟨0, 0, none⟩, ⟨0, 0, none⟩,
   ⟨0, 1, none⟩]

/-- Witness for C9's amended theorem at the concrete `pointHand`. -/
theorem isPointing_iff_witness :
    pointHand.length = 21 ∧
    (isPointing pointHand = true ↔
      ((lm pointHand 8).y < (lm pointHand 6).y ∧
       (lm pointHand 10).y < (lm pointHand 12).y ∧
       (lm pointHand 14).y < (lm pointHand 16).y ∧
       (lm pointHand 18).y < (lm pointHand 20).y)) :=
  ⟨by decide, isPointing_iff pointHand (by decide)⟩

/-! ## Sticky hand tracking (Air Piano client, `gameLoop`)

The source keeps two parallel arrays per frame (`landmarks[i]` and
`handedness[i]`); the embedding zips them into one list of detected
hands. -/

/-- One detected hand of a `FrameResult`: its handedness category names
(the source reads `hand[0].categoryName`) and its landmark array. -/
structure DetectedHand where
  categories : List String
  landmarks : List Landmark
deriving DecidableEq, Repr

/-- `hand[0] && hand[0].categoryName === label`: the predicate used by the
`findIndex` lookup of the game loop. -/
def hasLabel (h : DetectedHand) (label : String) : Bool :=
  match h.categories.head? with
  | some l => l == label
  | none => false

/-- The locked label's per-frame resolution,
`handedness.findIndex(hand => hand[0] && hand[0].categoryName === locked)`
followed by `landmarks[handIndex]`: the landmarks of the FIRST hand whose
first category name equals the locked label. -/
def resolveHand (locked : String) (frame : List DetectedHand) :
    Option (List Landmark) :=
  (frame.find? (fun h => hasLabel h locked)).map DetectedHand.landmarks

/-- One tick of the sticky-hand tracking block of `gameLoop`: lock on
first detection, then look the locked label up in the current frame.
Returns the new binding and the landmarks resolved this tick.  The
source's clearing statement
`if (landmarks.length === 0) { trackedHandRef.current = null; }` sits
inside the branch that required `landmarks.length > 0`, so it is kept
verbatim here — and can never fire. -/
def stickyStep (tracked : Option String) (frame : List DetectedHand) :
    Option String × Option (List Landmark) :=
  if frame ≠ [] then
    let tracked' :=
      match tracked with
      | some l => some l
      | none =>
        match frame.head? with
        | some h => h.categories.head?
        | none => none
    match tracked' with
    | some label =>
      match frame.find? (fun h => hasLabel h label) with
      | some h => (tracked', some h.landmarks)
      | none =>
        if frame.length = 0 then (none, none) else (tracked', none)
    | none => (tracked', none)
  else (tracked, none)

/-- C2 failing input: a role locked to `"Right"` processes a frame with
ZERO hands.  The claim (and the source's own comment, "If tracked hand is
lost, clear it so it can re-lock") says the binding is cleared; the code's
clearing guard `landmarks.length === 0` is nested inside the
`landmarks.length > 0` branch, so the binding survives every empty
frame. -/
theorem stickyStep_keeps_binding_on_empty_frame :
    stickyStep (some "Right") [] = (some "Right", none) ∧
    ∀ tracked frame, (stickyStep tracked frame).1 ≠ none ∨ tracked = none := by
  constructor
  · rfl
  · intro tracked frame
    cases tracked with
    | none => exact Or.inr rfl
    | some l =>
      left
      unfold stickyStep
      by_cases hf : frame = []
      · rw [if_neg (by simp [hf])]
        simp
      · rw [if_pos hf]
        rcases hfind : List.find? (fun h => hasLabel h l) frame with - | hd <;>
          simp [hfind, List.length_eq_zero, hf]

/-! ## Resolver order-independence -/

/-- C5 counterexample: two detected hands BOTH labelled `"Right"` with
different landmark arrays.  The second hand carries the locked label but
the role does not resolve to its landmarks, and swapping the two hands
changes which landmarks the role resolves to. -/
theorem resolveHand_duplicate_label_counterexample :
    (⟨["Right"], [⟨1, 0, none⟩]⟩ : DetectedHand) ∈
        [(⟨["Right"], [⟨0, 0, none⟩]⟩ : DetectedHand), ⟨["Right"], [⟨1, 0, none⟩]⟩] ∧
    hasLabel ⟨["Right"], [⟨1, 0, none⟩]⟩ "Right" = true ∧
    resolveHand "Right"
        [⟨["Right"], [⟨0, 0, none⟩]⟩, ⟨["Right"], [⟨1, 0, none⟩]⟩] ≠
      some [⟨1, 0, none⟩] ∧
    resolveHand "Right"
        [⟨["Right"], [⟨0, 0, none⟩]⟩, ⟨["Right"], [⟨1, 0, none⟩]⟩] ≠
      resolveHand "Right"
        [⟨["Right"], [⟨1, 0, none⟩]⟩, ⟨["Right"], [⟨0, 0, none⟩]⟩] := by
  refine ⟨by decide, by decide, ?_, ?_⟩ <;> decide

theorem resolveHand_eq_of_unique (locked : String) :
    ∀ (frame : List DetectedHand),
      frame.countP (fun h => hasLabel h locked) ≤ 1 →
      ∀ h ∈ frame, hasLabel h locked = true →
        resolveHand locked frame = some h.landmarks := by
  intro frame
  induction frame with
  | nil => intro _ h hmem _; exact absurd hmem (List.not_mem_nil h)
  | cons hd tl ih =>
    intro hcount h hmem hlab
    rcases List.mem_cons.mp hmem with rfl | htl
    · rw [resolveHand,
        @List.find?_cons_of_pos DetectedHand (fun x => hasLabel x locked) h tl hlab]
      rfl
    · by_cases hhd : hasLabel hd locked = true
      · exfalso
        have h1 : 0 < tl.countP (fun x => hasLabel x locked) :=
          List.countP_pos_iff.mpr ⟨h, htl, hlab⟩
        simp only [List.countP_cons, hhd, if_pos] at hcount
        omega
      · have hcount' : tl.countP (fun x => hasLabel x locked) ≤ 1 := by
          simp only [List.countP_cons, hhd, if_neg, if_false] at hcount
          omega
        have hres := ih hcount' h htl hlab
        rw [resolveHand,
          @List.find?_cons_of_neg DetectedHand (fun x => hasLabel x locked) hd tl hhd]
        rw [resolveHand] at hres
        exact hres

/-- C5 (amended): on every frame in which AT MOST ONE hand carries the
locked label, the role resolves to that hand's landmarks regardless of its
position in the frame, and permuting the hands of such a frame does not
change what the role resolves to.  (With two same-label hands the
`findIndex` lookup takes whichever comes first — see the
counterexample.) -/
theorem resolveHand_order_independent (locked : String)
    (frame frame' : List DetectedHand) (hperm : frame.Perm frame')
    (hunique : frame.countP (fun h => hasLabel h locked) ≤ 1) :
    (∀ h ∈ frame, hasLabel h locked = true →
      resolveHand locked frame = some h.landmarks) ∧
    resolveHand locked frame = resolveHand locked frame' := by
  have hunique' : frame'.countP (fun h => hasLabel h locked) ≤ 1 := by
    rw [← hperm.countP_eq]; exact hunique
  refine ⟨fun h hmem hlab => resolveHand_eq_of_unique locked frame hunique h hmem hlab, ?_⟩
  rcases hfind : frame.find? (fun h => hasLabel h locked) with - | h
  · have hnone : ∀ x ∈ frame, ¬ hasLabel x locked = true :=
      fun x hx => by simpa using List.find?_eq_none.mp hfind x hx
    have hnone' : frame'.find? (fun h => hasLabel h locked) = none :=
      List.find?_eq_none.mpr fun x hx => by
        simpa using hnone x (hperm.mem_iff.mpr hx)
    simp [resolveHand, hfind, hnone']
  · have hmem : h ∈ frame := List.mem_of_find?_eq_some hfind
    have hlab : hasLabel h locked = true := by
      simpa using List.find?_some hfind
    rw [resolveHand_eq_of_unique locked frame hunique h hmem hlab,
      resolveHand_eq_of_unique locked frame' hunique' h
        (hperm.mem_iff.mp hmem) hlab]

/-- Witness for C5's amended theorem: a `[Left, Right]` frame against its
`[Right, Left]` permutation, locked to `"Right"`. -/
theorem resolveHand_order_independent_witness :
    ([(⟨["Left"], [⟨0, 0, none⟩]⟩ : DetectedHand), ⟨["Right"], [⟨1, 0, none⟩]⟩].Perm
      [⟨["Right"], [⟨1, 0, none⟩]⟩, ⟨["Left"], [⟨0, 0, none⟩]⟩]) ∧
    ([(⟨["Left"], [⟨0, 0, none⟩]⟩ : DetectedHand), ⟨["Right"], [⟨1, 0, none⟩]⟩].countP
        (fun h => hasLabel h "Right") ≤ 1) ∧
    ((∀ h ∈ [(⟨["Left"], [⟨0, 0, none⟩]⟩ : DetectedHand), ⟨["Right"], [⟨1, 0, none⟩]⟩],
        hasLabel h "Right" = true →
        resolveHand "Right"
            [⟨["Left"], [⟨0, 0, none⟩]⟩, ⟨["Right"], [⟨1, 0, none⟩]⟩] =
          some h.landmarks) ∧
      resolveHand "Right" [⟨["Left"], [⟨0, 0, none⟩]⟩, ⟨["Right"], [⟨1, 0, none⟩]⟩] =
        resolveHand "Right" [⟨["Right"], [⟨1, 0, none⟩]⟩, ⟨["Left"], [⟨0, 0, none⟩]⟩]) :=
  ⟨List.Perm.swap _ _ _, by decide,
    resolveHand_order_independent "Right" _ _ (List.Perm.swap _ _ _) (by decide)⟩

/-! ## Temporal smoother (Air Piano client)

```
const SMOOTHING_FACTOR = 0.3;
function lerp(start, end, amt) { return (1 - amt) * start + amt * end; }
```

and, per lane, in `gameLoop`:

```
if (!smoothedFingersRef.current[i]) {
  smoothedFingersRef.current[i] = { x: newX, y: newY };       // seed
} else {
  smoothedFingersRef.current[i].y =
    lerp(smoothedFingersRef.current[i].y, newY, SMOOTHING_FACTOR);
}
```
-/

/-- `lerp(start, end, amt) = (1 - amt) * start + amt * end`.  (`end` is a
keyword in Lean, hence `stop`.) -/
def lerp (start stop amt : ℚ) : ℚ := (1 - amt) * start + amt * stop

/-- `SMOOTHING_FACTOR = 0.3`. -/
def SMOOTHING_FACTOR : ℚ := 3 / 10

/-- One smoother update for one tracked coordinate: absent state is seeded
with the raw observation, present state moves by `lerp` with
`SMOOTHING_FACTOR`. -/
def smoothStep (prev : Option ℚ) (raw : ℚ) : ℚ :=
  match prev with
  | none => raw
  | some s => lerp s raw SMOOTHING_FACTOR

/-- The smoothed value after `n` update ticks of a constant raw input `r`,
starting from a seeded value `s`. -/
def smoothIter (s r : ℚ) : ℕ → ℚ
  | 0 => s
  | n + 1 => smoothStep (some (smoothIter s r n)) r

theorem smoothIter_sub (s r : ℚ) (n : ℕ) :
    smoothIter s r (n + 1) - r = (1 - SMOOTHING_FACTOR) * (smoothIter s r n - r) := by
  simp only [smoothIter, smoothStep, lerp]
  ring

/-- C7: the smoother seeds with the raw value, its update is exactly
`smoothed + α * (raw - smoothed)` with `α = SMOOTHING_FACTOR = 0.3`, and
under a constant raw input the smoothed value stays between its seed and
the raw value (never overshooting) while its distance to the raw value
shrinks by the exact factor `1 - α = 7/10` every tick — monotone geometric
convergence. -/
theorem smoother_seed_update_converges (s r : ℚ) :
    SMOOTHING_FACTOR = 3 / 10 ∧
    smoothStep none r = r ∧
    (∀ x, smoothStep (some x) r = x + SMOOTHING_FACTOR * (r - x)) ∧
    (∀ n, |smoothIter s r n - r| = (1 - SMOOTHING_FACTOR) ^ n * |s - r|) ∧
    (∀ n, |smoothIter s r (n + 1) - r| ≤ |smoothIter s r n - r|) ∧
    (∀ n, min s r ≤ smoothIter s r n ∧ smoothIter s r n ≤ max s r) := by
  have hα : SMOOTHING_FACTOR = 3 / 10 := rfl
  have habs : ∀ n, |smoothIter s r n - r| = (1 - SMOOTHING_FACTOR) ^ n * |s - r| := by
    intro n
    induction n with
    | zero => simp [smoothIter]
    | succ n ihn =>
      rw [smoothIter_sub, abs_mul, ihn, pow_succ]
      rw [show |1 - SMOOTHING_FACTOR| = 1 - SMOOTHING_FACTOR by
        rw [abs_of_pos]; rw [hα]; norm_num]
      ring
  refine ⟨hα, rfl, fun x => by simp only [smoothStep, lerp]; ring, habs, ?_, ?_⟩
  · intro n
    rw [habs, habs, pow_succ]
    have h0 : (0 : ℚ) ≤ (1 - SMOOTHING_FACTOR) ^ n * |s - r| :=
      mul_nonneg (pow_nonneg (by rw [hα]; norm_num) n) (abs_nonneg _)
    nlinarith [abs_nonneg (s - r), pow_nonneg (show (0:ℚ) ≤ 1 - SMOOTHING_FACTOR by rw [hα]; norm_num) n]
  · intro n
    induction n with
    | zero =>
      constructor
      · exact min_le_left s r
      · exact le_max_left s r
    | succ n ihn =>
      have hrec := smoothIter_sub s r n
      rcases le_total s r with hsr | hrs
      · rw [min_eq_left hsr, max_eq_right hsr] at ihn ⊢
        constructor <;> nlinarith [ihn.1, ihn.2]
      · rw [min_eq_right hrs, max_eq_left hrs] at ihn ⊢
        constructor <;> nlinarith [ihn.1, ihn.2]

/-! ## Math Challenge hold-to-confirm machine
(`src/app/games/math-challenge/MathChallengeClient.tsx`)

The client keeps `gameState`, `potentialAnswer` and `holdTime` in React
state.  Three pieces interact, and all three are embedded:

* the candidate-start effect: in `PLAYING`, any `detectedFingers > 0`
  becomes the potential answer, `holdTime` is reset to
  `ANSWER_HOLD_SECONDS`, and the state moves to `HOLDING`;
* the deviation effect: in `HOLDING`, a detected count different from the
  potential answer discards it and returns to `PLAYING`;
* the one-second hold timer: in `HOLDING` with `holdTime > 0` it
  decrements `holdTime` after a second; the effect re-runs synchronously
  on the new value, and on `holdTime === 0` it confirms the held answer
  (`handleAnswer`, which moves to `FEEDBACK`).

One `tickMC` is one second of gameplay: the tick's observed finger count
is fed to the start/deviation effects, then the timer fires.  The
`currentProblem` guard of the effects is omitted: a problem is always
present in `PLAYING`/`HOLDING` (it is fetched before `PLAYING` is
entered). -/

/-- The `GameState` union of `MathChallengeClient`. -/
inductive MCGameState
  | IDLE
  | LOADING
  | PLAYING
  | HOLDING
  | FEEDBACK
  | LOADING_PROBLEM
deriving DecidableEq, Repr

/-- `ANSWER_HOLD_SECONDS = 3`. -/
def ANSWER_HOLD_SECONDS : ℕ := 3

/-- The React state the hold machine lives in. -/
structure MCState where
  gameState : MCGameState
  potentialAnswer : Option ℕ
  holdTime : ℕ
deriving DecidableEq, Repr

/-- The state on entering `PLAYING` with a fresh problem: no potential
answer, `holdTime` at its `useState(ANSWER_HOLD_SECONDS)` initial. -/
def mcInit : MCState := ⟨MCGameState.PLAYING, none, ANSWER_HOLD_SECONDS⟩

/-- The candidate-start and deviation effects, run against the tick's
detected finger count. -/
def observe (s : MCState) (detectedFingers : ℕ) : MCState :=
  if s.gameState = MCGameState.PLAYING ∧ 0 < detectedFingers then
    { s with
      potentialAnswer := some detectedFingers
      holdTime := ANSWER_HOLD_SECONDS
      gameState := MCGameState.HOLDING }
  else if s.gameState = MCGameState.HOLDING ∧ some detectedFingers ≠ s.potentialAnswer then
    { s with potentialAnswer := none, gameState := MCGameState.PLAYING }
  else s

/-- The `gameState === 'HOLDING' && holdTime === 0` branch: confirm the
held answer (`handleAnswer` moves the game to `FEEDBACK`) and report the
confirmed value. -/
def holdExpire (s : MCState) : MCState × Option ℕ :=
  if s.gameState = MCGameState.HOLDING ∧ s.holdTime = 0 then
    match s.potentialAnswer with
    | some a => ({ s with gameState := MCGameState.FEEDBACK }, some a)
    | none => (s, none)
  else (s, none)

/-- The 1-second hold timer: in `HOLDING` with `holdTime > 0` the counter
drops by one; the effect then re-runs synchronously, confirming if the
counter just reached zero. -/
def holdTick (s : MCState) : MCState × Option ℕ :=
  if s.gameState = MCGameState.HOLDING ∧ 0 < s.holdTime then
    holdExpire { s with holdTime := s.holdTime - 1 }
  else (s, none)

/-- One second of the Math Challenge answer loop: effects observe this
tick's finger count, then the hold timer fires.  The second component is
the answer confirmed this tick, if any. -/
def tickMC (s : MCState) (detectedFingers : ℕ) : MCState × Option ℕ :=
  holdTick (observe s detectedFingers)

/-- `tickMC` iterated over a list of per-tick finger counts, collecting
the per-tick confirmation events. -/
def runMC (s : MCState) : List ℕ → MCState × List (Option ℕ)
  | [] => (s, [])
  | f :: fs =>
    let t := tickMC s f
    let rest := runMC t.1 fs
    (rest.1, t.2 :: rest.2)

theorem tickMC_frozen (s : MCState) (f : ℕ)
    (h1 : s.gameState ≠ MCGameState.PLAYING)
    (h2 : s.gameState ≠ MCGameState.HOLDING) : tickMC s f = (s, none) := by
  rw [tickMC, observe, if_neg (by simp [h1]), if_neg (by simp [h2]),
    holdTick, if_neg (by simp [h2])]

theorem runMC_frozen (s : MCState)
    (h1 : s.gameState ≠ MCGameState.PLAYING)
    (h2 : s.gameState ≠ MCGameState.HOLDING) :
    ∀ fs : List ℕ, runMC s fs = (s, List.replicate fs.length none)
  | [] => rfl
  | f :: fs => by
    rw [runMC, tickMC_frozen s f h1 h2]
    simp only [runMC_frozen s h1 h2 fs, List.length_cons, List.replicate]

theorem runMC_append (s : MCState) (l1 l2 : List ℕ) :
    runMC s (l1 ++ l2) =
      ((runMC (runMC s l1).1 l2).1,
        (runMC s l1).2 ++ (runMC (runMC s l1).1 l2).2) := by
  induction l1 generalizing s with
  | nil => simp [runMC]
  | cons f fs ih => simp [runMC, ih]

theorem runMC_hold_phase (c : ℕ) (hc : 0 < c) :
    runMC mcInit (List.replicate ANSWER_HOLD_SECONDS c) =
      (⟨MCGameState.FEEDBACK, some c, 0⟩, [none, none, some c]) := by
  have hc' : c ≠ 0 := Nat.pos_iff_ne_zero.mp hc
  simp [ANSWER_HOLD_SECONDS, List.replicate, runMC, tickMC, observe, holdTick,
    holdExpire, mcInit, hc, hc']

/-- C3: from the answering state, a positive candidate `c` observed on
every tick is confirmed exactly once, on the tick where the cumulative
held duration first reaches `ANSWER_HOLD_SECONDS` — `none` on the first
`ANSWER_HOLD_SECONDS - 1` ticks, `some c` on tick `ANSWER_HOLD_SECONDS`,
`none` on every later tick — after which the machine sits in `FEEDBACK`
(no hold in progress, i.e. the hold machine's idle). -/
theorem mc_hold_confirms_once (c n : ℕ) (hc : 0 < c)
    (hn : ANSWER_HOLD_SECONDS ≤ n) :
    (runMC mcInit (List.replicate n c)).2 =
      List.replicate (ANSWER_HOLD_SECONDS - 1) none ++ [some c] ++
        List.replicate (n - ANSWER_HOLD_SECONDS) none ∧
    (runMC mcInit (List.replicate n c)).1.gameState = MCGameState.FEEDBACK := by
  obtain ⟨m, rfl⟩ := Nat.exists_eq_add_of_le hn
  rw [List.replicate_add, runMC_append, runMC_hold_phase c hc,
    runMC_frozen _ (by simp) (by simp) (List.replicate m c)]
  constructor
  · simp [ANSWER_HOLD_SECONDS, List.replicate]
  · rfl

/-- Witness for C3: candidate 2 held for 5 ticks confirms exactly on tick
3. -/
theorem mc_hold_confirms_once_witness :
    0 < 2 ∧ ANSWER_HOLD_SECONDS ≤ 5 ∧
    ((runMC mcInit (List.replicate 5 2)).2 =
      List.replicate (ANSWER_HOLD_SECONDS - 1) none ++ [some 2] ++
        List.replicate (5 - ANSWER_HOLD_SECONDS) none ∧
     (runMC mcInit (List.replicate 5 2)).1.gameState = MCGameState.FEEDBACK) :=
  ⟨by decide, by decide, mc_hold_confirms_once 2 5 (by decide) (by decide)⟩

/-- C4: a candidate `c` held for `ANSWER_HOLD_SECONDS - 1` ticks followed
by a deviating observation `d ≠ c` never confirms anything: every tick's
event is `none`, the machine is back in `PLAYING` with no candidate, and
any subsequent hold start gets the full `ANSWER_HOLD_SECONDS` countdown
again (elapsed hold duration 0). -/
theorem mc_hold_resets_on_deviation (c d : ℕ) (hc : 0 < c) (hne : d ≠ c) :
    (runMC mcInit (List.replicate (ANSWER_HOLD_SECONDS - 1) c ++ [d])).2 =
      List.replicate ANSWER_HOLD_SECONDS none ∧
    (runMC mcInit (List.replicate (ANSWER_HOLD_SECONDS - 1) c ++ [d])).1 =
      ⟨MCGameState.PLAYING, none, 1⟩ ∧
    (∀ f, 0 < f →
      observe (runMC mcInit (List.replicate (ANSWER_HOLD_SECONDS - 1) c ++ [d])).1 f =
        ⟨MCGameState.HOLDING, some f, ANSWER_HOLD_SECONDS⟩) := by
  have hc' : c ≠ 0 := Nat.pos_iff_ne_zero.mp hc
  have hrun :
      runMC mcInit (List.replicate (ANSWER_HOLD_SECONDS - 1) c ++ [d]) =
        (⟨MCGameState.PLAYING, none, 1⟩, [none, none, none]) := by
    simp [ANSWER_HOLD_SECONDS, List.replicate, runMC, tickMC, observe,
      holdTick, holdExpire, mcInit, hc, hc', hne]
  refine ⟨by rw [hrun]; rfl, by rw [hrun], ?_⟩
  intro f hf
  have hf' : f ≠ 0 := Nat.pos_iff_ne_zero.mp hf
  rw [hrun]
  simp [observe, hf, hf']

/-- Witness for C4: candidate 2 held two ticks, then no candidate
(0 fingers). -/
theorem mc_hold_resets_on_deviation_witness :
    0 < 2 ∧ (0 : ℕ) ≠ 2 ∧
    ((runMC mcInit (List.replicate (ANSWER_HOLD_SECONDS - 1) 2 ++ [0])).2 =
      List.replicate ANSWER_HOLD_SECONDS none ∧
     (runMC mcInit (List.replicate (ANSWER_HOLD_SECONDS - 1) 2 ++ [0])).1 =
      ⟨MCGameState.PLAYING, none, 1⟩ ∧
     (∀ f, 0 < f →
       observe (runMC mcInit (List.replicate (ANSWER_HOLD_SECONDS - 1) 2 ++ [0])).1 f =
         ⟨MCGameState.HOLDING, some f, ANSWER_HOLD_SECONDS⟩)) :=
  ⟨by decide, by decide, mc_hold_resets_on_deviation 2 0 (by decide) (by decide)⟩

/-- C10: a detected finger count of zero never becomes a candidate: a
`PLAYING` state ticked with zero fingers is left completely unchanged with
no event, and from any state whose candidate is not zero, no tick can make
the candidate zero or confirm a zero answer. -/
theorem mc_zero_never_candidate :
    (∀ s, s.gameState = MCGameState.PLAYING → tickMC s 0 = (s, none)) ∧
    (∀ s f, s.potentialAnswer ≠ some 0 →
      (tickMC s f).1.potentialAnswer ≠ some 0 ∧ (tickMC s f).2 ≠ some 0) := by
  constructor
  · intro s hs
    rw [tickMC, observe, if_neg (by simp), if_neg (by simp [hs]), holdTick,
      if_neg (by simp [hs])]
  · intro s f hpa
    rcases hsp : s.potentialAnswer with - | a
    · simp only [tickMC, observe, holdTick, holdExpire, hsp]
      split_ifs <;> simp_all <;> omega
    · have ha : a ≠ 0 := fun h => hpa (by rw [hsp, h])
      simp only [tickMC, observe, holdTick, holdExpire, hsp]
      split_ifs <;> simp_all <;> omega

/-- Witness for C10 at the initial answering state. -/
theorem mc_zero_never_candidate_witness :
    (tickMC mcInit 0 = (mcInit, none)) ∧
    ((tickMC mcInit 5).1.potentialAnswer ≠ some 0 ∧
      (tickMC mcInit 5).2 ≠ some 0) :=
  ⟨mc_zero_never_candidate.1 mcInit rfl,
    mc_zero_never_candidate.2 mcInit 5 (by decide)⟩

end MotionArcade
